import Mathlib

/-!
Shallow embedding of `dlt/sources/sql_database/helpers.py` (incremental SQL
table extraction): the `TableLoader` class (`__init__`, `_make_query`,
`_load_rows`, `_load_rows_connectorx`), the `table_rows` generator and
`engine_from_credentials`.  Cursor values are modelled as `Int` (any linearly
ordered cursor type behaves identically for the comparison operators used),
SQL `NULL` cursor cells as `Option.none`, and the SQLAlchemy query object as an
explicit AST (`Select` / `WhereClause`) recording exactly the clauses the
source attaches to the base `table.select()` query.
-/

namespace SqlDatabase

/-- Sort order literals of `TSortOrder` (`"asc" | "desc"`); the Python value
`None` is modelled as `Option.none` at use sites. -/
inductive SortOrder where
  | asc
  | desc
deriving DecidableEq, Repr

/-- Value of `Incremental.last_value_func`.  The source only distinguishes the
builtins `max` and `min` by identity (`last_value_func is max` / `is min`);
every other callable falls into the custom case. -/
inductive LastValueFunc where
  | max
  | min
  | custom
deriving DecidableEq, Repr

/-- Value of `Incremental.on_cursor_value_missing`
(`TOnCursorValueMissing = "raise" | "include" | "exclude"`).  The constructor
`include_` carries a trailing underscore only because `include` is a Lean
keyword. -/
inductive OnCursorValueMissing where
  | raise
  | include_
  | exclude
deriving DecidableEq, Repr

/-- The slice of `dlt.extract.Incremental` read by `helpers.py`: cursor path,
bounds, aggregation function, row order, missing-cursor policy and primary
key.  Cursor values are modelled as `Int`. -/
structure Incremental where
  cursor_path : String
  last_value : Option Int := none
  end_value : Option Int := none
  last_value_func : LastValueFunc := .max
  row_order : Option SortOrder := none
  on_cursor_value_missing : OnCursorValueMissing := .raise
  primary_key : Option (List String) := none
deriving DecidableEq, Repr

/-- SQLAlchemy `Table` descriptor as read by `helpers.py`: its name, the names
of its columns (`table.c`), and — modelled from the spec, since
`schema_types.get_primary_key` is outside the excerpt — its declared primary
key. -/
structure Table where
  name : String
  columns : List String
  primary_key : Option (List String) := none
deriving DecidableEq, Repr

/-- Comparison operators attached to the cursor column: `operator.ge / le /
lt / gt` applied as `op(cursor_column, value)`. -/
inductive CmpOp where
  | ge
  | le
  | lt
  | gt
deriving DecidableEq, Repr

/-- Evaluation of `op(cursor_column, value)` on a non-NULL cursor cell `x`:
`ge` means `x >= v`, `le` means `x <= v`, `lt` means `x < v`, `gt` means
`x > v`. -/
def CmpOp.eval : CmpOp → Int → Int → Bool
  | .ge, x, v => decide (v ≤ x)
  | .le, x, v => decide (x ≤ v)
  | .lt, x, v => decide (x < v)
  | .gt, x, v => decide (v < x)

/-- AST of the WHERE expression `_make_query` builds over the single cursor
column.  `trueLit` models the Python literal `True` used as the initial
placeholder; `cmp op v` models `filter_op(self.cursor_column, v)`; `is_null` /
`is_not_null` model `cursor_column.is_(None)` / `cursor_column.isnot(None)`;
`and_` / `or_` model `sa.and_` / `sa.or_`. -/
inductive WhereClause where
  | trueLit
  | cmp (op : CmpOp) (v : Int)
  | and_ (a b : WhereClause)
  | or_ (a b : WhereClause)
  | is_null
  | is_not_null
deriving DecidableEq, Repr

/-- SQL WHERE semantics of a clause at a row whose cursor cell is `r`
(`none` = SQL NULL).  A comparison with NULL is UNKNOWN and the row is not
selected; collapsing UNKNOWN to `false` is exact here because the clauses the
source builds contain no negation above a comparison. -/
def WhereClause.eval : WhereClause → Option Int → Bool
  | .trueLit, _ => true
  | .cmp op v, r => match r with
    | none => false
    | some x => op.eval x v
  | .and_ a b, r => a.eval r && b.eval r
  | .or_ a b, r => a.eval r || b.eval r
  | .is_null, r => r.isNone
  | .is_not_null, r => r.isSome

/-- The built SQLAlchemy `Select` over one table: the optional WHERE clause
and the optional ORDER BY direction on the cursor column (the source orders by
at most the one cursor column). -/
structure Select where
  table : String
  whereclause : Option WhereClause := none
  order_by : Option SortOrder := none
deriving DecidableEq, Repr

/-- Base query `table.select()`: full scan, no WHERE, no ORDER BY. -/
def Table.select (t : Table) : Select :=
  { table := t.name }

/-- Whether the built query selects a row whose cursor cell is `r`:
a missing WHERE clause selects every row. -/
def Select.acceptsRow (q : Select) (r : Option Int) : Bool :=
  match q.whereclause with
  | none => true
  | some w => w.eval r

/-- A row of the query result: the tuple of column values, `none` = SQL NULL. -/
abbrev Row := List (Option Int)

/-- State of a constructed `TableLoader` (fields set by `__init__`). -/
structure TableLoader where
  table : Table
  chunk_size : Nat
  incremental : Option Incremental
  cursor_column : Option String
  last_value : Option Int
  end_value : Option Int
  row_order : Option SortOrder
  on_cursor_value_missing : Option OnCursorValueMissing
deriving DecidableEq, Repr

/-- Constructor `TableLoader.__init__` (helpers.py lines 47-81): with an
incremental, the cursor column is looked up in `table.c` and a `KeyError`
naming the column and the table is raised when absent; an error return models
the raise, so no loader object — hence no query — exists on that path. -/
def TableLoader.init (table : Table) (chunk_size : Nat)
    (incremental : Option Incremental) : Except String TableLoader :=
  match incremental with
  | some inc =>
    if inc.cursor_path ∈ table.columns then
      .ok { table := table, chunk_size := chunk_size, incremental := some inc,
            cursor_column := some inc.cursor_path,
            last_value := inc.last_value, end_value := inc.end_value,
            row_order := inc.row_order,
            on_cursor_value_missing := some inc.on_cursor_value_missing }
    else
      .error ("Cursor column '" ++ inc.cursor_path ++ "' does not exist in table '"
        ++ table.name ++ "'")
  | none =>
    .ok { table := table, chunk_size := chunk_size, incremental := none,
          cursor_column := none, last_value := none, end_value := none,
          row_order := none, on_cursor_value_missing := none }

/-- Dispatch on `last_value_func` (helpers.py lines 91-98): `max` gives
`(filter_op, filter_op_end) = (ge, lt)`, `min` gives `(le, gt)`, and any
custom function gives `none` (the early `return query`). -/
def LastValueFunc.filterOps : LastValueFunc → Option (CmpOp × CmpOp)
  | .max => some (.ge, .lt)
  | .min => some (.le, .gt)
  | .custom => none

/-- Lower-bound clause before missing-value augmentation (helpers.py lines
101-106): `filter_op(cursor, last_value)`, AND-ed with
`filter_op_end(cursor, end_value)` when an end value is set. -/
def boundClause (filter_op filter_op_end : CmpOp) (v : Int)
    (end_value : Option Int) : WhereClause :=
  match end_value with
  | none => .cmp filter_op v
  | some w => .and_ (.cmp filter_op v) (.cmp filter_op_end w)

/-- The `where_clause` value at the end of the WHERE construction (helpers.py
lines 100-111): starts as `True`; a set `last_value` replaces it with the
bound clause, OR-ed with `cursor IS NULL` under the `include` policy; the
`exclude` policy unconditionally ANDs `cursor IS NOT NULL` outside whatever
was built. -/
def TableLoader.whereClauseValue (self : TableLoader)
    (filter_op filter_op_end : CmpOp) : WhereClause :=
  let wc : WhereClause :=
    match self.last_value with
    | none => .trueLit
    | some v =>
      let base := boundClause filter_op filter_op_end v self.end_value
      if self.on_cursor_value_missing = some .include_ then .or_ base .is_null
      else base
  if self.on_cursor_value_missing = some .exclude then .and_ wc .is_not_null
  else wc

/-- The `order_by` value (helpers.py lines 117-125): ascending when the
requested order agrees with the aggregation direction (`asc`+`max` or
`desc`+`min`), descending when it disagrees, `none` when no row order is
requested. -/
def TableLoader.orderByValue (self : TableLoader) (f : LastValueFunc) :
    Option SortOrder :=
  if (self.row_order = some .asc ∧ f = .max) ∨
      (self.row_order = some .desc ∧ f = .min) then
    some .asc
  else if (self.row_order = some .asc ∧ f = .min) ∨
      (self.row_order = some .desc ∧ f = .max) then
    some .desc
  else none

/-- Translation of `TableLoader._make_query` (helpers.py lines 83-129): bare
`table.select()` without an incremental or under a custom
`last_value_func`; otherwise the WHERE clause is attached when it differs
from the `True` placeholder (the `where_clause is not True` test) and the
resolved ORDER BY, when any, is appended. -/
def TableLoader._make_query (self : TableLoader) : Select :=
  let query := self.table.select
  match self.incremental with
  | none => query
  | some inc =>
    match inc.last_value_func.filterOps with
    | none => query
    | some (filter_op, filter_op_end) =>
      let wc := self.whereClauseValue filter_op filter_op_end
      let query := if wc ≠ .trueLit then { query with whereclause := some wc }
        else query
      match self.orderByValue inc.last_value_func with
      | some ob => { query with order_by := some ob }
      | none => query

/-- Server-side chunked fetch `result.partitions(size)` used by `_load_rows`
(helpers.py line 152), per the SQLAlchemy contract: successive groups of
`size` rows, the last group possibly shorter.  A zero `size` (which would
never terminate) returns no partitions; every claim below assumes a positive
chunk size, as does the source (defaults 1000 / 50000). -/
def partitions (size : Nat) (l : List Row) : List (List Row) :=
  if _h : l = [] ∨ size = 0 then []
  else l.take size :: partitions size (l.drop size)
termination_by l.length
decreasing_by
  simp only [List.length_drop]
  have hl : l ≠ [] := by tauto
  have hs : size ≠ 0 := by tauto
  have := List.length_pos.mpr hl
  omega

/-- Translation of `TableLoader._load_rows` (helpers.py lines 145-167) for the
in-process backends: the rows the database returns for the query (an external
input here) are consumed via `result.partitions(size=self.chunk_size)` and
each partition is emitted as one chunk.  The per-backend re-encoding of a
partition (dict mappings, pandas frame, arrow batch) is a bijective
re-packaging by external libraries and is modelled as the identity on the
partition. -/
def TableLoader._load_rows (self : TableLoader) (result_rows : List Row) :
    List (List Row) :=
  partitions self.chunk_size result_rows

/-- Effect of one invocation of `_load_rows_connectorx`: either the
`NotImplementedError` raised on a `CompileError` (modelled as `.error`), or
the single call `cx.read_sql(conn, query_str, ...)` handing the literal query
to the external reader. -/
inductive CxCall where
  | read_sql (conn : String) (query_str : String)
deriving DecidableEq, Repr

/-- Translation of `TableLoader._load_rows_connectorx` (helpers.py lines
169-198).  The compilation `str(query.compile(engine, literal_binds))` is
performed by SQLAlchemy, so its outcome is a parameter: `.error ex` models a
raised `CompileError` with message `ex`, `.ok s` a successful render to the
literal SQL text `s`.  On a `CompileError` the function raises
`NotImplementedError` whose message embeds `str(ex)`, and `cx.read_sql` is
never reached; otherwise the query text is handed to the reader on connection
string `conn`. -/
def TableLoader._load_rows_connectorx (self : TableLoader)
    (compiled : Except String String) (conn : String) : Except String CxCall :=
  match compiled with
  | .error ex =>
    .error ("Query for table " ++ self.table.name ++ " could not be compiled to"
      ++ " string to execute it on ConnectorX. If you are on SQLAlchemy 1.4.x"
      ++ " the causing exception is due to literals that cannot be rendered,"
      ++ " upgrade to 2.x: " ++ ex)
  | .ok query_str => .ok (.read_sql conn query_str)

/-- Engine handle: the connection URL plus the dynamically attached
`may_dispose_after_use` attribute; `none` models the attribute being absent
(as on an engine not created by `engine_from_credentials`). -/
structure Engine where
  url : String
  may_dispose_after_use : Option Bool := none
deriving DecidableEq, Repr

/-- Structured connection descriptor (`ConnectionStringCredentials`); the
engine helpers only use its `to_native_representation()` string. -/
structure ConnectionStringCredentials where
  native_representation : String
deriving DecidableEq, Repr

/-- Conversion `ConnectionStringCredentials.to_native_representation()`. -/
def ConnectionStringCredentials.to_native_representation
    (c : ConnectionStringCredentials) : String :=
  c.native_representation

/-- The `Union[ConnectionStringCredentials, Engine, str]` accepted by
`engine_from_credentials`. -/
inductive Credentials where
  | engine (e : Engine)
  | connection_string_credentials (c : ConnectionStringCredentials)
  | connection_string (s : String)
deriving DecidableEq, Repr

/-- SQLAlchemy `create_engine(url)`: a fresh handle without the
`may_dispose_after_use` attribute. -/
def create_engine (url : String) : Engine :=
  { url := url }

/-- Translation of `engine_from_credentials` (helpers.py lines 259-270): a
pre-built `Engine` is returned unchanged (no attribute is set on it); a
structured descriptor is first normalized to its connection string; otherwise
the string is used directly, and the freshly created engine is tagged with
`may_dispose_after_use`. -/
def engine_from_credentials (credentials : Credentials)
    (may_dispose_after_use : Bool := false) : Engine :=
  match credentials with
  | .engine e => e
  | .connection_string_credentials c =>
    { create_engine c.to_native_representation with
        may_dispose_after_use := some may_dispose_after_use }
  | .connection_string s =>
    { create_engine s with may_dispose_after_use := some may_dispose_after_use }

/-- Column mapping `table_to_columns(table, ...)`.  Modelled from the spec:
`schema_types.table_to_columns` (schema reflection / column-type mapping) is
an excluded external collaborator; the engine passes the derived mapping
through, so the model carries the table's column names. -/
def table_to_columns (t : Table) : List String :=
  t.columns

/-- Primary key lookup `get_primary_key(table)`.  Modelled from the spec:
`schema_types.get_primary_key` is outside the excerpt; the model reads the
declared primary key off the table descriptor. -/
def get_primary_key (t : Table) : Option (List String) :=
  t.primary_key

/-- Item yielded by the `table_rows` generator: either the single
`dlt.mark.with_hints([], make_hints(primary_key, columns))` control record
(whose data payload is the empty row list) or one data chunk. -/
inductive OutItem where
  | hints_record (rows : List Row) (primary_key : Option (List String))
      (columns : List String)
  | chunk (rows : List Row)
deriving DecidableEq, Repr

/-- Whether an output item is the schema-hints control record. -/
def OutItem.isHints : OutItem → Bool
  | .hints_record _ _ _ => true
  | .chunk _ => false

/-- Primary-key auto-population step of `table_rows` (helpers.py lines
223-227): when the incremental lacks an explicit primary key and the
(re-reflected) table declares one, it is copied into the incremental. -/
def autopopulate_primary_key (table : Table) :
    Option Incremental → Option Incremental
  | some inc =>
    if inc.primary_key = none then
      match get_primary_key table with
      | some pk => some { inc with primary_key := some pk }
      | none => some inc
    else some inc
  | none => none

/-- Translation of the body of `table_rows` (helpers.py lines 201-251).  With
`defer_table_reflect` the table is re-reflected against the live engine
(modelled as yielding the same descriptor, reflection being an excluded
collaborator), a missing `incremental.primary_key` is auto-populated from the
table's declared key, and the zero-row hints record is yielded before the
loader is constructed; then the loader's chunks follow.  The result pairs the
items the generator yields, in order, with the `KeyError` message when
`TableLoader.__init__` raises (the raise happens after the hints record was
already yielded). -/
def table_rows (_engine : Engine) (table : Table) (chunk_size : Nat)
    (incremental : Option Incremental) (defer_table_reflect : Bool)
    (result_rows : List Row) : List OutItem × Option String :=
  if defer_table_reflect then
    let columns := table_to_columns table
    let incremental := autopopulate_primary_key table incremental
    let hints := [OutItem.hints_record [] (get_primary_key table) columns]
    match TableLoader.init table chunk_size incremental with
    | .error e => (hints, some e)
    | .ok loader =>
      (hints ++ (loader._load_rows result_rows).map OutItem.chunk, none)
  else
    match TableLoader.init table chunk_size incremental with
    | .error e => ([], some e)
    | .ok loader => ((loader._load_rows result_rows).map OutItem.chunk, none)

/-- Ways an iteration of the `table_rows` generator can end: full exhaustion,
the consumer abandoning the iterator early (`GeneratorExit`), or an error
propagating out of the loading code. -/
inductive IterationEnd where
  | exhausted
  | consumer_abort
  | error_during_load (e : String)
deriving DecidableEq, Repr

/-- The `finally` block of `table_rows` (helpers.py lines 250-256): Python
runs it on every exit path — exhaustion, `GeneratorExit`, or a propagated
exception — so the disposal decision is a function of the engine alone:
`getattr(engine, "may_dispose_after_use", False)` guards `engine.dispose()`.
Returns whether the engine is disposed. -/
def table_rows_cleanup_disposes (engine : Engine) (_ending : IterationEnd) :
    Bool :=
  engine.may_dispose_after_use.getD false

/-- Sample loader used by the concrete witnesses: the state
`TableLoader.__init__` produces on a two-column table for the given
incremental. -/
def mkLoader (inc : Option Incremental) : TableLoader :=
  { table := { name := "events", columns := ["id", "ts"],
               primary_key := some ["id"] },
    chunk_size := 2,
    incremental := inc,
    cursor_column := inc.map (fun i => i.cursor_path),
    last_value := inc.bind (fun i => i.last_value),
    end_value := inc.bind (fun i => i.end_value),
    row_order := inc.bind (fun i => i.row_order),
    on_cursor_value_missing := inc.map (fun i => i.on_cursor_value_missing) }

/-- Sample table whose columns do not contain the configured cursor column. -/
def tableSampleNoTs : Table :=
  { name := "events", columns := ["id"] }

/-- Sample externally supplied engine: the disposal attribute is absent. -/
def engineSampleExt : Engine :=
  { url := "postgresql://localhost/db" }

/-- Sample incremental: max aggregation with both bounds set. -/
def incSampleMax : Incremental :=
  { cursor_path := "ts", last_value := some 5, end_value := some 9,
    last_value_func := .max }

/-- Sample incremental: min aggregation with both bounds set. -/
def incSampleMin : Incremental :=
  { cursor_path := "ts", last_value := some 5, end_value := some 2,
    last_value_func := .min }

/-- Sample incremental: include policy with a last value. -/
def incSampleInclude : Incremental :=
  { cursor_path := "ts", last_value := some 5, last_value_func := .max,
    on_cursor_value_missing := .include_ }

/-- Sample incremental: custom aggregation function. -/
def incSampleCustom : Incremental :=
  { cursor_path := "ts", last_value := some 5, end_value := some 9,
    row_order := some .asc, last_value_func := .custom,
    on_cursor_value_missing := .exclude }

/-- Sample incremental: no last value, an end value, exclude policy. -/
def incSampleNoLast : Incremental :=
  { cursor_path := "ts", end_value := some 9, last_value_func := .min,
    on_cursor_value_missing := .exclude }

/-- Sample incremental: explicit ascending row order under max. -/
def incSampleOrder : Incremental :=
  { cursor_path := "ts", last_value := some 5, last_value_func := .max,
    row_order := some .asc }

/-- Sample rows for the chunking witness. -/
def rowsSample : List Row :=
  [[some 1], [some 2], [some 3], [none], [some 5]]

/-! ## Helper lemmas -/

theorem partitions_nil (size : Nat) : partitions size ([] : List Row) = [] := by
  rw [partitions]
  simp

theorem partitions_cons (size : Nat) (l : List Row) (hl : l ≠ [])
    (hs : size ≠ 0) :
    partitions size l = l.take size :: partitions size (l.drop size) := by
  rw [partitions]
  simp [hl, hs]

theorem partitions_ne_nil (size : Nat) (l : List Row) (hl : l ≠ [])
    (hs : size ≠ 0) : partitions size l ≠ [] := by
  rw [partitions_cons size l hl hs]
  simp

theorem partitions_flatten (size : Nat) (hs : size ≠ 0) (l : List Row) :
    (partitions size l).flatten = l := by
  generalize hn : l.length = n
  induction n using Nat.strong_induction_on generalizing l with
  | _ n ih =>
    by_cases hl : l = []
    · subst hl
      simp [partitions_nil]
    · rw [partitions_cons size l hl hs]
      simp only [List.flatten_cons]
      have hlt : (l.drop size).length < n := by
        subst hn
        simp only [List.length_drop]
        have := List.length_pos.mpr hl
        omega
      rw [ih (l.drop size).length hlt (l.drop size) rfl]
      exact List.take_append_drop size l

theorem partitions_length (size : Nat) (hs : 0 < size) (l : List Row) :
    (partitions size l).length = (l.length + size - 1) / size := by
  generalize hn : l.length = n
  induction n using Nat.strong_induction_on generalizing l with
  | _ n ih =>
    by_cases hl : l = []
    · subst hl
      simp only [List.length_nil] at hn
      subst hn
      rw [partitions_nil]
      simp only [List.length_nil, Nat.zero_add]
      exact (Nat.div_eq_of_lt (by omega)).symm
    · rw [partitions_cons size l hl (Nat.pos_iff_ne_zero.mp hs)]
      have hpos : 0 < n := hn ▸ List.length_pos.mpr hl
      have hlt : (l.drop size).length < n := by
        subst hn
        simp only [List.length_drop]
        omega
      simp only [List.length_cons]
      rw [ih (l.drop size).length hlt (l.drop size) rfl]
      simp only [List.length_drop, hn]
      rcases le_or_lt n size with hle | hgt
      · have h1 : n - size = 0 := by omega
        rw [h1]
        have h2 : (0 + size - 1) / size = 0 := Nat.div_eq_of_lt (by omega)
        rw [h2]
        have h3 : n + size - 1 = (n - 1) + size := by omega
        rw [h3, Nat.add_div_right _ hs, Nat.div_eq_of_lt (by omega)]
      · have h1 : n - size + size - 1 = n - 1 := by omega
        have h2 : n + size - 1 = (n - 1) + size := by omega
        rw [h1, h2, Nat.add_div_right _ hs]

theorem partitions_dropLast (size : Nat) (hs : 0 < size) (l : List Row) :
    ∀ c ∈ (partitions size l).dropLast, c.length = size := by
  generalize hn : l.length = n
  induction n using Nat.strong_induction_on generalizing l with
  | _ n ih =>
    by_cases hl : l = []
    · subst hl
      simp [partitions_nil]
    · rw [partitions_cons size l hl (Nat.pos_iff_ne_zero.mp hs)]
      by_cases hd : l.drop size = []
      · rw [hd, partitions_nil]
        simp
      · rw [List.dropLast_cons_of_ne_nil
          (partitions_ne_nil size _ hd (Nat.pos_iff_ne_zero.mp hs))]
        intro c hc
        rcases List.mem_cons.mp hc with hc | hc
        · subst hc
          have hsz : size ≤ l.length := by
            by_contra hcon
            exact hd (List.drop_eq_nil_of_le (by omega))
          simp [List.length_take, Nat.min_eq_left hsz]
        · have hlt : (l.drop size).length < n := by
            subst hn
            simp only [List.length_drop]
            have := List.length_pos.mpr hl
            omega
          exact ih (l.drop size).length hlt (l.drop size) rfl c hc

theorem make_query_eq (self : TableLoader) (inc : Incremental) (fo foe : CmpOp)
    (hinc : self.incremental = some inc)
    (hops : inc.last_value_func.filterOps = some (fo, foe)) :
    self._make_query =
      { table := self.table.name,
        whereclause :=
          if self.whereClauseValue fo foe = .trueLit then none
          else some (self.whereClauseValue fo foe),
        order_by := self.orderByValue inc.last_value_func } := by
  unfold TableLoader._make_query
  rcases h : self.whereClauseValue fo foe <;>
    rcases h2 : self.orderByValue inc.last_value_func <;>
    simp [hinc, hops, Table.select, h, h2]

/-! ## Claim theorems -/

/-- C1: for every cursor state with `aggregation_func = max` and
`last_value = v` set, the built query filters rows with
`cursor_column >= v`, and if `end_value = w` is also set it additionally
filters `cursor_column < w`; symmetrically, for `min` the query filters
`cursor_column <= v` and, with an end value, `cursor_column > w`.  Stated
over the WHERE semantics at an arbitrary non-NULL cursor cell `x`. -/
theorem make_query_bounds_filter (self : TableLoader) (inc : Incremental)
    (v : Int) (hinc : self.incremental = some inc)
    (hlast : self.last_value = some v) (x : Int) :
    (inc.last_value_func = .max →
      self._make_query.acceptsRow (some x) =
        (decide (v ≤ x) && match self.end_value with
          | some w => decide (x < w)
          | none => true)) ∧
    (inc.last_value_func = .min →
      self._make_query.acceptsRow (some x) =
        (decide (x ≤ v) && match self.end_value with
          | some w => decide (w < x)
          | none => true)) := by
  constructor <;> intro hf <;>
    [rw [make_query_eq self inc .ge .lt hinc (by rw [hf]; rfl)];
     rw [make_query_eq self inc .le .gt hinc (by rw [hf]; rfl)]] <;>
    rcases he : self.end_value with _ | w <;>
    rcases hm : self.on_cursor_value_missing with _ | (_ | _ | _) <;>
    simp [TableLoader.whereClauseValue, boundClause, hlast, he, hm,
      Select.acceptsRow, WhereClause.eval, CmpOp.eval]

/-- Witness for C1: on the sample max-loader with `last_value = 5` and
`end_value = 9`, the built query accepts the row with cursor value 6. -/
theorem make_query_bounds_filter_witness :
    (mkLoader (some incSampleMax)).incremental = some incSampleMax ∧
    (mkLoader (some incSampleMax)).last_value = some 5 ∧
    (mkLoader (some incSampleMax))._make_query.acceptsRow (some 6) = true :=
  ⟨rfl, rfl, by
    rw [(make_query_bounds_filter (mkLoader (some incSampleMax)) incSampleMax 5
      rfl rfl 6).1 rfl]
    decide⟩

/-- C2: for max or min aggregation, the `include` policy with a set
`last_value` augments the lower-bound predicate with `OR cursor IS NULL`;
with `last_value` unset `include` adds nothing (no WHERE clause at all); the
`exclude` policy appends `AND cursor IS NOT NULL` unconditionally — whether
or not `last_value` is set — as the outermost conjunction. -/
theorem make_query_missing_value_clauses (self : TableLoader)
    (inc : Incremental) (fo foe : CmpOp)
    (hinc : self.incremental = some inc)
    (hops : inc.last_value_func.filterOps = some (fo, foe)) :
    (∀ v, self.last_value = some v →
      self.on_cursor_value_missing = some .include_ →
      self._make_query.whereclause =
        some (.or_ (boundClause fo foe v self.end_value) .is_null)) ∧
    (self.last_value = none →
      self.on_cursor_value_missing = some .include_ →
      self._make_query.whereclause = none) ∧
    (self.on_cursor_value_missing = some .exclude →
      self._make_query.whereclause =
        some (.and_ (match self.last_value with
          | some v => boundClause fo foe v self.end_value
          | none => .trueLit) .is_not_null)) := by
  refine ⟨?_, ?_, ?_⟩
  · intro v hlast hm
    rw [make_query_eq self inc fo foe hinc hops]
    simp [TableLoader.whereClauseValue, hlast, hm]
  · intro hlast hm
    rw [make_query_eq self inc fo foe hinc hops]
    simp [TableLoader.whereClauseValue, hlast, hm]
  · intro hm
    rw [make_query_eq self inc fo foe hinc hops]
    rcases hlast : self.last_value with _ | v <;>
      simp [TableLoader.whereClauseValue, hlast, hm]

/-- Witness for C2: on the sample include-policy loader with
`last_value = 5` and no end value, the WHERE clause is
`cursor >= 5 OR cursor IS NULL`. -/
theorem make_query_missing_value_clauses_witness :
    (mkLoader (some incSampleInclude)).incremental = some incSampleInclude ∧
    incSampleInclude.last_value_func.filterOps = some (.ge, .lt) ∧
    (mkLoader (some incSampleInclude))._make_query.whereclause =
      some (.or_ (.cmp .ge 5) .is_null) :=
  ⟨rfl, rfl, by
    rw [(make_query_missing_value_clauses (mkLoader (some incSampleInclude))
      incSampleInclude .ge .lt rfl rfl).1 5 rfl rfl]
    decide⟩

/-- C3: for max or min aggregation, ORDER BY on the cursor column is emitted
exactly when a row order is explicitly requested, and the direction is the
XOR of the requested order with the aggregation direction: `asc` under `max`
or `desc` under `min` sorts ascending, the other two combinations sort
descending; an unset `row_order` emits no ORDER BY. -/
theorem make_query_order_by (self : TableLoader) (inc : Incremental)
    (hinc : self.incremental = some inc)
    (hfunc : inc.last_value_func = .max ∨ inc.last_value_func = .min) :
    (self.row_order = none → self._make_query.order_by = none) ∧
    (∀ ro, self.row_order = some ro →
      self._make_query.order_by =
        some (if (ro == SortOrder.asc) == (inc.last_value_func == .max)
          then SortOrder.asc else SortOrder.desc)) := by
  rcases hfunc with hf | hf
  · refine ⟨?_, ?_⟩
    · intro hro
      rw [make_query_eq self inc .ge .lt hinc (by rw [hf]; rfl)]
      simp [TableLoader.orderByValue, hro, hf]
    · intro ro hro
      rw [make_query_eq self inc .ge .lt hinc (by rw [hf]; rfl)]
      rcases ro <;> simp [TableLoader.orderByValue, hro, hf]
  · refine ⟨?_, ?_⟩
    · intro hro
      rw [make_query_eq self inc .le .gt hinc (by rw [hf]; rfl)]
      simp [TableLoader.orderByValue, hro, hf]
    · intro ro hro
      rw [make_query_eq self inc .le .gt hinc (by rw [hf]; rfl)]
      rcases ro <;> simp [TableLoader.orderByValue, hro, hf]

/-- Witness for C3: requesting ascending order under max aggregation yields
an ascending sort on the cursor column. -/
theorem make_query_order_by_witness :
    (mkLoader (some incSampleOrder)).incremental = some incSampleOrder ∧
    (incSampleOrder.last_value_func = .max ∨
      incSampleOrder.last_value_func = .min) ∧
    (mkLoader (some incSampleOrder))._make_query.order_by = some .asc :=
  ⟨rfl, Or.inl rfl, by
    rw [(make_query_order_by (mkLoader (some incSampleOrder)) incSampleOrder
      rfl (Or.inl rfl)).2 .asc rfl]
    decide⟩

/-- C4: under a custom aggregation function the built query is the bare
full-table `table.select()` — no WHERE predicate and no ORDER BY — whatever
the bounds, row order and missing-value policy are. -/
theorem make_query_custom_bypass (self : TableLoader) (inc : Incremental)
    (hinc : self.incremental = some inc)
    (hfunc : inc.last_value_func = .custom) :
    self._make_query = self.table.select ∧
    self._make_query.whereclause = none ∧
    self._make_query.order_by = none := by
  have h : self._make_query = self.table.select := by
    unfold TableLoader._make_query
    simp [hinc, hfunc, LastValueFunc.filterOps]
  exact ⟨h, by rw [h]; rfl, by rw [h]; rfl⟩

/-- Witness for C4: the sample custom-aggregation loader — bounds, row order
and exclude policy all set — still builds the bare unfiltered query. -/
theorem make_query_custom_bypass_witness :
    (mkLoader (some incSampleCustom)).incremental = some incSampleCustom ∧
    incSampleCustom.last_value_func = .custom ∧
    (mkLoader (some incSampleCustom))._make_query =
      (mkLoader (some incSampleCustom)).table.select :=
  ⟨rfl, rfl,
    (make_query_custom_bypass (mkLoader (some incSampleCustom)) incSampleCustom
      rfl rfl).1⟩

/-- C10: for max or min aggregation with `last_value` unset, the end value
has no effect on the built query, and the only possible WHERE clause is the
`cursor IS NOT NULL` conjunct contributed by the `exclude` policy (ANDed onto
the untouched `True` placeholder); no bound predicate is emitted. -/
theorem make_query_no_last_value (self : TableLoader) (inc : Incremental)
    (hinc : self.incremental = some inc)
    (hlast : self.last_value = none)
    (hfunc : inc.last_value_func = .max ∨ inc.last_value_func = .min) :
    (∀ w : Option Int,
      TableLoader._make_query { self with end_value := w } =
        self._make_query) ∧
    (self._make_query.whereclause =
      if self.on_cursor_value_missing = some .exclude
      then some (.and_ .trueLit .is_not_null) else none) := by
  obtain ⟨fo, foe, hops⟩ : ∃ fo foe,
      inc.last_value_func.filterOps = some (fo, foe) := by
    rcases hfunc with hf | hf <;> rw [hf] <;> exact ⟨_, _, rfl⟩
  constructor
  · intro w
    rw [make_query_eq { self with end_value := w } inc fo foe hinc hops,
      make_query_eq self inc fo foe hinc hops]
    simp [TableLoader.whereClauseValue, TableLoader.orderByValue, hlast]
  · rw [make_query_eq self inc fo foe hinc hops]
    rcases hm : self.on_cursor_value_missing with _ | (_ | _ | _) <;>
      simp [TableLoader.whereClauseValue, hlast, hm]

/-- Witness for C10: the sample no-last-value exclude-policy min-loader with
`end_value = 9` builds `WHERE cursor IS NOT NULL` and changing the end value
to 7 leaves the query unchanged. -/
theorem make_query_no_last_value_witness :
    (mkLoader (some incSampleNoLast)).incremental = some incSampleNoLast ∧
    (mkLoader (some incSampleNoLast)).last_value = none ∧
    (incSampleNoLast.last_value_func = .max ∨
      incSampleNoLast.last_value_func = .min) ∧
    TableLoader._make_query
        { mkLoader (some incSampleNoLast) with end_value := some 7 } =
      (mkLoader (some incSampleNoLast))._make_query ∧
    (mkLoader (some incSampleNoLast))._make_query.whereclause =
      some (.and_ .trueLit .is_not_null) :=
  ⟨rfl, rfl, Or.inr rfl,
    (make_query_no_last_value (mkLoader (some incSampleNoLast)) incSampleNoLast
      rfl rfl (Or.inr rfl)).1 (some 7), by
    rw [(make_query_no_last_value (mkLoader (some incSampleNoLast))
      incSampleNoLast rfl rfl (Or.inr rfl)).2]
    decide⟩

/-- C5: when the configured cursor column is absent from the table's columns,
`TableLoader.__init__` raises — so construction fails before any query can be
built or executed — and the error message contains both the missing column
name and the table name. -/
theorem init_missing_cursor_column_fails (table : Table) (chunk_size : Nat)
    (inc : Incremental) (h : inc.cursor_path ∉ table.columns) :
    TableLoader.init table chunk_size (some inc) =
      .error ("Cursor column '" ++ inc.cursor_path
        ++ "' does not exist in table '" ++ table.name ++ "'") ∧
    ∃ pre mid post,
      ("Cursor column '" ++ inc.cursor_path ++ "' does not exist in table '"
          ++ table.name ++ "'") =
        pre ++ inc.cursor_path ++ mid ++ table.name ++ post := by
  refine ⟨?_, "Cursor column '", "' does not exist in table '", "'", rfl⟩
  simp [TableLoader.init, h]

/-- Witness for C5: a table with only an `id` column rejects a cursor
configured on `ts`, naming both in the message. -/
theorem init_missing_cursor_column_fails_witness :
    incSampleMax.cursor_path ∉ tableSampleNoTs.columns ∧
    TableLoader.init tableSampleNoTs 1000 (some incSampleMax) =
      .error "Cursor column 'ts' does not exist in table 'events'" :=
  ⟨by decide, by
    rw [(init_missing_cursor_column_fails tableSampleNoTs 1000 incSampleMax
      (by decide)).1]
    rfl⟩

/-- C6: `engine_from_credentials` returns a pre-built engine unchanged (so it
is never tagged for disposal), an engine created from a connection string or
a structured descriptor is tagged with the `may_dispose_after_use` flag it
was created with, and the unconditional cleanup of `table_rows` disposes the
engine — on exhaustion, consumer abort, or error alike — exactly when that
tag is present and true; an engine without the tag is never disposed. -/
theorem engine_disposal_policy :
    (∀ (e : Engine) (b : Bool),
      engine_from_credentials (.engine e) b = e) ∧
    (∀ (s : String) (b : Bool) (ending : IterationEnd),
      table_rows_cleanup_disposes
        (engine_from_credentials (.connection_string s) b) ending = b) ∧
    (∀ (c : ConnectionStringCredentials) (b : Bool) (ending : IterationEnd),
      table_rows_cleanup_disposes
        (engine_from_credentials (.connection_string_credentials c) b)
        ending = b) ∧
    (∀ (e : Engine) (ending : IterationEnd),
      e.may_dispose_after_use = none →
      table_rows_cleanup_disposes (engine_from_credentials (.engine e) true)
        ending = false) := by
  refine ⟨fun e b => rfl, fun s b ending => rfl, fun c b ending => rfl,
    fun e ending h => ?_⟩
  simp [engine_from_credentials, table_rows_cleanup_disposes, h]

/-- Witness for C6: the sample external engine is returned unchanged and not
disposed even on error; a string-created engine with the flag is disposed. -/
theorem engine_disposal_policy_witness :
    engineSampleExt.may_dispose_after_use = none ∧
    engine_from_credentials (.engine engineSampleExt) true = engineSampleExt ∧
    table_rows_cleanup_disposes
      (engine_from_credentials (.engine engineSampleExt) true)
      (.error_during_load "boom") = false ∧
    table_rows_cleanup_disposes
      (engine_from_credentials (.connection_string "sqlite:///db") true)
      .consumer_abort = true :=
  ⟨rfl, engine_disposal_policy.1 engineSampleExt true,
    engine_disposal_policy.2.2.2 engineSampleExt (.error_during_load "boom")
      rfl,
    engine_disposal_policy.2.1 "sqlite:///db" true .consumer_abort⟩

/-- C7: with deferred reflection requested, the yielded sequence starts with
exactly one control record — zero rows plus the derived primary key and
column mapping — and everything after it is a data chunk; with deferred
reflection off, no control record is yielded at all. -/
theorem table_rows_hints_record_first (engine : Engine) (table : Table)
    (chunk_size : Nat) (incremental : Option Incremental) (rows : List Row) :
    (∃ rest,
      (table_rows engine table chunk_size incremental true rows).1 =
        OutItem.hints_record [] (get_primary_key table) (table_to_columns table)
          :: rest ∧
      ∀ x ∈ rest, x.isHints = false) ∧
    (∀ x ∈ (table_rows engine table chunk_size incremental false rows).1,
      x.isHints = false) := by
  constructor
  · rcases hini : TableLoader.init table chunk_size
        (autopopulate_primary_key table incremental) with e | loader
    · exact ⟨[], by simp [table_rows, hini], by simp⟩
    · refine ⟨(loader._load_rows rows).map OutItem.chunk,
        by simp [table_rows, hini], ?_⟩
      intro x hx
      rcases List.mem_map.mp hx with ⟨r, _, hr⟩
      rw [← hr]
      rfl
  · intro x hx
    rcases hini : TableLoader.init table chunk_size incremental with e | loader <;>
      simp [table_rows, hini] at hx
    rcases hx with ⟨r, _, hr⟩
    rw [← hr]
    rfl

/-- Witness for C7: on the sample two-column table with a declared primary
key, the deferred-reflection run yields the zero-row hints record first. -/
theorem table_rows_hints_record_first_witness :
    ∃ rest,
      (table_rows engineSampleExt
          { name := "events", columns := ["id", "ts"],
            primary_key := some ["id"] } 2 none true rowsSample).1 =
        OutItem.hints_record [] (some ["id"]) ["id", "ts"] :: rest ∧
      ∀ x ∈ rest, x.isHints = false := by
  have h := (table_rows_hints_record_first engineSampleExt
    { name := "events", columns := ["id", "ts"], primary_key := some ["id"] }
    2 none rowsSample).1
  simpa [get_primary_key, table_to_columns] using h

/-- C8: loading a query result of N rows with a positive `chunk_size` k on an
in-process backend yields `ceil(N/k)` chunks, every chunk before the last has
exactly k rows, and concatenating the chunks in emission order reproduces the
full result. -/
theorem load_rows_chunking (self : TableLoader) (rows : List Row)
    (hk : 0 < self.chunk_size) :
    (self._load_rows rows).length =
      (rows.length + self.chunk_size - 1) / self.chunk_size ∧
    (∀ c ∈ (self._load_rows rows).dropLast, c.length = self.chunk_size) ∧
    (self._load_rows rows).flatten = rows :=
  ⟨partitions_length self.chunk_size hk rows,
    partitions_dropLast self.chunk_size hk rows,
    partitions_flatten self.chunk_size (Nat.pos_iff_ne_zero.mp hk) rows⟩

/-- Witness for C8: five sample rows at chunk size 2 make ceil(5/2) = 3
chunks whose concatenation is the original row list. -/
theorem load_rows_chunking_witness :
    0 < (mkLoader none).chunk_size ∧
    ((mkLoader none)._load_rows rowsSample).length = 3 ∧
    ((mkLoader none)._load_rows rowsSample).flatten = rowsSample := by
  refine ⟨by decide, ?_,
    (load_rows_chunking (mkLoader none) rowsSample (by decide)).2.2⟩
  rw [(load_rows_chunking (mkLoader none) rowsSample (by decide)).1]
  decide

/-- C9: on the connectorx path, a failure to compile the built query to
literal SQL makes the loader raise an error whose message embeds the
underlying compilation failure's message, and the query is never handed to
the external reader. -/
theorem connectorx_compile_error_fatal (self : TableLoader)
    (ex conn : String) :
    (∃ msg, self._load_rows_connectorx (.error ex) conn = .error msg ∧
      ∃ pre, msg = pre ++ ex) ∧
    (∀ c : CxCall, self._load_rows_connectorx (.error ex) conn ≠ .ok c) := by
  refine ⟨⟨_, rfl, _, rfl⟩, fun c h => ?_⟩
  simp [TableLoader._load_rows_connectorx] at h

/-- Witness for C9: a concrete compile failure on the sample loader is
reported as an error ending in the underlying message, not a read call. -/
theorem connectorx_compile_error_fatal_witness :
    ∃ msg,
      (mkLoader none)._load_rows_connectorx (.error "boom") "sqlite:///db" =
        .error msg ∧ ∃ pre, msg = pre ++ "boom" :=
  (connectorx_compile_error_fatal (mkLoader none) "boom" "sqlite:///db").1

end SqlDatabase
